import Mathlib

/-!
Verification of the `intellex-communications` service core against its
specification.  The development shallowly embeds the TypeScript sources
(`src/webhooks/resend.ts` and `src/index.ts`) in Lean:

* JS strings are Lean `String`s; character-level operations (split, trim,
  case mapping) are modelled directly on the underlying `List Char`.
* JS numbers appearing here are integers in every reachable use, so they are
  modelled as `Int`/`Nat` (IEEE-754 rounding beyond 2^53 is not modelled).
* `node:crypto`'s HMAC-SHA256 is implemented in full (bytes as `Nat < 256`,
  32-bit words as `Nat` with explicit `% 2^32`), hex output lowercase.
* Fallible code returns `Option`/`Except`.

All definitions are executable and reduce in the kernel (no well-founded
recursion on the computation paths), so concrete runs are provable by
`decide`/`rfl`.
-/

namespace Intellex

/-! ## Character-level string primitives (JS semantics) -/

/-- Whitespace as used by JS `String.prototype.trim` (ASCII subset; the
source never feeds non-ASCII whitespace to `trim`). -/
def jsWhitespace (c : Char) : Bool :=
  c = ' ' || c = '\t' || c = '\n' || c = '\r'

/-- Strip leading and trailing whitespace, JS `trim`. -/
def trimChars (l : List Char) : List Char :=
  ((l.dropWhile jsWhitespace).reverse.dropWhile jsWhitespace).reverse

/-- JS `s.trim()`. -/
def jsTrim (s : String) : String := ⟨trimChars s.data⟩

/-- JS `s.split(sep)` for a one-character separator: `"".split(sep) = [""]`,
separators at the ends produce empty fields. -/
def splitOnChar (sep : Char) : List Char → List (List Char)
  | [] => [[]]
  | c :: rest =>
    if c = sep then [] :: splitOnChar sep rest
    else
      match splitOnChar sep rest with
      | [] => [[c]]
      | h :: t => (c :: h) :: t

/-- Is the first list a prefix of the second (used for JS `startsWith`). -/
def isPrefixChars : List Char → List Char → Bool
  | [], _ => true
  | _ :: _, [] => false
  | p :: ps, c :: cs => p == c && isPrefixChars ps cs

/-- JS string length: number of UTF-16 code units. -/
def utf16Units (c : Char) : Nat := if c.toNat < 65536 then 1 else 2

/-- JS `s.length` (UTF-16 code units; equals the character count for BMP
text, which covers every string the service manipulates). -/
def jsLength (s : String) : Nat := (s.data.map utf16Units).sum

/-- UTF-8 encoding of one character (1–4 bytes). -/
def utf8EncodeChar (c : Char) : List Nat :=
  let n := c.toNat
  if n < 128 then [n]
  else if n < 2048 then [192 + n / 64, 128 + n % 64]
  else if n < 65536 then [224 + n / 4096, 128 + n / 64 % 64, 128 + n % 64]
  else [240 + n / 262144, 128 + n / 4096 % 64, 128 + n / 64 % 64, 128 + n % 64]

/-- The byte sequence of `Buffer.from(s, 'utf8')`. -/
def utf8Bytes (s : String) : List Nat := (s.data.map utf8EncodeChar).flatten

/-! ## Decimal printing and parsing (JS `${n}` and `Number.parseInt(v, 10)`) -/

def digitChar (d : Nat) : Char := Char.ofNat (48 + d)

/-- Decimal digits of `n`, most significant first.  Fuel-structured so that
the kernel can evaluate it (`natDigits` supplies fuel `n + 1`). -/
def natDigitsAux : Nat → Nat → List Char
  | 0, _ => []
  | fuel + 1, n =>
    if n < 10 then [digitChar n]
    else natDigitsAux fuel (n / 10) ++ [digitChar (n % 10)]

def natDigits (n : Nat) : List Char := natDigitsAux (n + 1) n

/-- JS number-to-string for integers (`${timestamp}`). -/
def intToString : Int → String
  | .ofNat n => ⟨natDigits n⟩
  | .negSucc m => ⟨'-' :: natDigits (m + 1)⟩

/-- Value of a list of decimal digit characters. -/
def digitsToNat (l : List Char) : Nat :=
  l.foldl (fun acc c => acc * 10 + (c.toNat - 48)) 0

/-- ASCII decimal digit (the radix-10 digit set of `parseInt`). -/
def isDigitChar (c : Char) : Bool := 48 ≤ c.toNat && c.toNat ≤ 57

/-- Leading decimal run of a character list, `none` when there is none. -/
def parseDigits (l : List Char) : Option Nat :=
  let ds := l.takeWhile isDigitChar
  if ds.isEmpty then none else some (digitsToNat ds)

/-- `Number.parseInt(v, 10)` restricted to finite results: trims whitespace,
takes an optional sign and the longest leading digit run; `none` models NaN. -/
def parseIntJS (l : List Char) : Option Int :=
  let t := trimChars l
  if t.head? = some '-' then (parseDigits (t.drop 1)).map (fun n => -(n : Int))
  else if t.head? = some '+' then (parseDigits (t.drop 1)).map (fun n => (n : Int))
  else (parseDigits t).map (fun n => (n : Int))

/-! ## SHA-256 and HMAC-SHA256 (`node:crypto`), bytes as `Nat < 256` -/

def w32 (n : Nat) : Nat := n % 4294967296

def add32 (a b : Nat) : Nat := (a + b) % 4294967296

def not32 (a : Nat) : Nat := a ^^^ 4294967295

def shr32 (n x : Nat) : Nat := x / 2 ^ n

def rotr32 (n x : Nat) : Nat := w32 (x / 2 ^ n + x % 2 ^ n * 2 ^ (32 - n))

def bigSigma0 (x : Nat) : Nat := rotr32 2 x ^^^ rotr32 13 x ^^^ rotr32 22 x

def bigSigma1 (x : Nat) : Nat := rotr32 6 x ^^^ rotr32 11 x ^^^ rotr32 25 x

def smallSigma0 (x : Nat) : Nat := rotr32 7 x ^^^ rotr32 18 x ^^^ shr32 3 x

def smallSigma1 (x : Nat) : Nat := rotr32 17 x ^^^ rotr32 19 x ^^^ shr32 10 x

def chFn (e f g : Nat) : Nat := (e &&& f) ^^^ (not32 e &&& g)

def majFn (a b c : Nat) : Nat := (a &&& b) ^^^ (a &&& c) ^^^ (b &&& c)

/-- SHA-256 round constants (FIPS 180-4), written in decimal. -/
def K256 : List Nat :=
  [1116352408, 1899447441, 3049323471, 3921009573, 961987163,
   1508970993, 2453635748, 2870763221, 3624381080, 310598401,
   607225278, 1426881987, 1925078388, 2162078206, 2614888103,
   3248222580, 3835390401, 4022224774, 264347078, 604807628,
   770255983, 1249150122, 1555081692, 1996064986, 2554220882,
   2821834349, 2952996808, 3210313671, 3336571891, 3584528711,
   113926993, 338241895, 666307205, 773529912, 1294757372,
   1396182291, 1695183700, 1986661051, 2177026350, 2456956037,
   2730485921, 2820302411, 3259730800, 3345764771, 3516065817,
   3600352804, 4094571909, 275423344, 430227734, 506948616,
   659060556, 883997877, 958139571, 1322822218, 1537002063,
   1747873779, 1955562222, 2024104815, 2227730452, 2361852424,
   2428436474, 2756734187, 3204031479, 3329325298]

/-- Working state: eight 32-bit words. -/
structure Hash8 where
  a : Nat
  b : Nat
  c : Nat
  d : Nat
  e : Nat
  f : Nat
  g : Nat
  h : Nat
deriving DecidableEq

def initHash : Hash8 :=
  ⟨1779033703, 3144134277, 1013904242, 2773480762,
   1359893119, 2600822924, 528734635, 1541459225⟩

/-- Big-endian bytes of a 32-bit word. -/
def be32 (x : Nat) : List Nat :=
  [x / 16777216 % 256, x / 65536 % 256, x / 256 % 256, x % 256]

/-- Big-endian bytes of a 64-bit value. -/
def be64 (x : Nat) : List Nat :=
  [x / 72057594037927936 % 256, x / 281474976710656 % 256,
   x / 1099511627776 % 256, x / 4294967296 % 256,
   x / 16777216 % 256, x / 65536 % 256, x / 256 % 256, x % 256]

/-- SHA-256 padding: `0x80`, zeros to 56 mod 64, 64-bit bit length. -/
def padMessage (msg : List Nat) : List Nat :=
  let len := msg.length
  msg ++ [128] ++ List.replicate ((119 - len % 64) % 64) 0 ++ be64 (len * 8)

/-- Split a byte list into 64-byte chunks. -/
def chunksOf64 (l : List Nat) : List (List Nat) :=
  (List.range ((l.length + 63) / 64)).map (fun i => (l.drop (64 * i)).take 64)

/-- Word `i` of a chunk, big-endian. -/
def wordAt (chunk : List Nat) (i : Nat) : Nat :=
  chunk.getD (4 * i) 0 * 16777216 + chunk.getD (4 * i + 1) 0 * 65536 +
    chunk.getD (4 * i + 2) 0 * 256 + chunk.getD (4 * i + 3) 0

/-- The 64-entry message schedule of a chunk. -/
def messageSchedule (chunk : List Nat) : List Nat :=
  let ws0 := (List.range 16).foldl (fun a i => a.push (wordAt chunk i)) #[]
  let ws := (List.range 48).foldl
    (fun ws _ =>
      let i := ws.size
      ws.push (add32
        (add32 (smallSigma1 (ws.getD (i - 2) 0)) (ws.getD (i - 7) 0))
        (add32 (smallSigma0 (ws.getD (i - 15) 0)) (ws.getD (i - 16) 0))))
    ws0
  ws.toList

/-- One SHA-256 round. -/
def roundStep (st : Hash8) (kw : Nat × Nat) : Hash8 :=
  let t1 := add32 (add32 st.h (bigSigma1 st.e))
    (add32 (chFn st.e st.f st.g) (add32 kw.1 kw.2))
  let t2 := add32 (bigSigma0 st.a) (majFn st.a st.b st.c)
  ⟨add32 t1 t2, st.a, st.b, st.c, add32 st.d t1, st.e, st.f, st.g⟩

/-- Compress one 64-byte chunk into the state. -/
def compress (st : Hash8) (chunk : List Nat) : Hash8 :=
  let fin := (K256.zip (messageSchedule chunk)).foldl roundStep st
  ⟨add32 st.a fin.a, add32 st.b fin.b, add32 st.c fin.c, add32 st.d fin.d,
   add32 st.e fin.e, add32 st.f fin.f, add32 st.g fin.g, add32 st.h fin.h⟩

/-- Digest bytes of a final state. -/
def digestBytes (st : Hash8) : List Nat :=
  be32 st.a ++ be32 st.b ++ be32 st.c ++ be32 st.d ++
    be32 st.e ++ be32 st.f ++ be32 st.g ++ be32 st.h

/-- SHA-256 of a byte sequence. -/
def sha256Bytes (msg : List Nat) : List Nat :=
  digestBytes ((chunksOf64 (padMessage msg)).foldl compress initHash)

/-- HMAC-SHA256 (block size 64). -/
def hmacSha256 (key msg : List Nat) : List Nat :=
  let k0 := if 64 < key.length then sha256Bytes key else key
  let kPad := k0 ++ List.replicate (64 - k0.length) 0
  sha256Bytes (kPad.map (fun b => b ^^^ 92) ++
    sha256Bytes (kPad.map (fun b => b ^^^ 54) ++ msg))

/-- The sixteen lowercase hexadecimal digits. -/
def hexChars : List Char := "0123456789abcdef".data

def hexDigit (n : Nat) : Char := hexChars.getD (n % 16) '0'

/-- Lowercase hex characters of a byte list (two characters per byte). -/
def hexEncodeChars : List Nat → List Char
  | [] => []
  | b :: rest => hexDigit (b / 16) :: hexDigit b :: hexEncodeChars rest

/-- `hmac.digest('hex')`: lowercase hexadecimal string. -/
def hexEncode (bytes : List Nat) : String := ⟨hexEncodeChars bytes⟩

/-! ## `src/webhooks/resend.ts` -/

/-- The TS parameter type `string | string[] | undefined` of
`parseResendSignatureHeader`. -/
inductive HeaderValue where
  | undef
  | str (s : String)
  | arr (l : List String)
deriving DecidableEq

/-- The two falsiness checks at the top of `parseResendSignatureHeader`:
`if (!headerValue) return null` (undefined or empty string; arrays are
truthy) and, after `headerValue[0]`, `if (!raw) return null`. -/
def headerRaw : HeaderValue → Option String
  | .undef => none
  | .str s => if s = "" then none else some s
  | .arr l =>
    match l.head? with
    | none => none
    | some s => if s = "" then none else some s

/-- `parseKeyValue`: trim, drop empty parts, `split('=', 2)` (JS keeps only
the first two fields, discarding the rest), reject an empty key or a missing
value.  Works on the characters of one comma-separated part. -/
def parseKeyValue (part : List Char) : Option (List Char × List Char) :=
  let trimmed := trimChars part
  if trimmed = [] then none
  else
    match splitOnChar '=' trimmed with
    | [] => none
    | [_] => none
    | k :: v :: _ => if k = [] then none else some (k, v)

/-- `ResendSignature` from `resend.ts`. -/
structure ResendSignature where
  timestamp : Int
  signature : String
deriving DecidableEq

/-- Accumulator of the `for` loop over header parts. -/
structure SignatureParseState where
  timestamp : Option Int
  signature : Option (List Char)
deriving DecidableEq

/-- One iteration of the loop in `parseResendSignatureHeader`: a `t` pair
sets the timestamp when `parseInt` is finite, a `v1` pair always overwrites
the signature, every other pair is skipped. -/
def processSignaturePart (st : SignatureParseState) (part : List Char) :
    SignatureParseState :=
  match parseKeyValue part with
  | none => st
  | some (key, value) =>
    if key = ['t'] then
      match parseIntJS value with
      | some parsed => { st with timestamp := some parsed }
      | none => st
    else if key = ['v', '1'] then { st with signature := some value }
    else st

/-- `parseResendSignatureHeader`: split on commas, fold the parts, and
require a timestamp and a non-empty signature (`!signature` also rejects
the empty string). -/
def parseResendSignatureHeader (headerValue : HeaderValue) :
    Option ResendSignature :=
  match headerRaw headerValue with
  | none => none
  | some raw =>
    let st := (splitOnChar ',' raw.data).foldl processSignaturePart ⟨none, none⟩
    match st.timestamp, st.signature with
    | some t, some sig => if sig = [] then none else some ⟨t, ⟨sig⟩⟩
    | _, _ => none

/-- `buildSignedPayload`: `` `${timestamp}.${payload}` ``. -/
def buildSignedPayload (timestamp : Int) (payload : String) : String :=
  intToString timestamp ++ "." ++ payload

/-- `computeResendSignature`: HMAC-SHA256 over the signed payload, hex. -/
def computeResendSignature (secret : String) (timestamp : Int)
    (payload : String) : String :=
  hexEncode (hmacSha256 (utf8Bytes secret) (utf8Bytes (buildSignedPayload timestamp payload)))

/-- `timingSafeEqual`: UTF-8 buffers of both strings, `false` on length
mismatch, otherwise byte-for-byte comparison (the constant-time execution
of `crypto.timingSafeEqual` has no functional content to model). -/
def timingSafeEqual (expected provided : String) : Bool :=
  let expectedBuffer := utf8Bytes expected
  let providedBuffer := utf8Bytes provided
  if expectedBuffer.length ≠ providedBuffer.length then false
  else expectedBuffer == providedBuffer

/-- `VerificationResult` from `resend.ts`. -/
structure VerificationResult where
  ok : Bool
  timestamp : Option Int := none
  reason : Option String := none
deriving DecidableEq

/-- The options object of `verifyResendSignature`. -/
structure VerifyOptions where
  secret : String
  signatureHeader : HeaderValue
  payload : String
  toleranceSeconds : Option Int := none
  now : Option Int := none

/-- `verifyResendSignature`.  `dateNowMs` supplies `Date.now()` for the
`now ?? Date.now()` default; `now` is epoch milliseconds, the header
timestamp epoch seconds, tolerance defaults to 300 seconds. -/
def verifyResendSignature (dateNowMs : Int) (options : VerifyOptions) :
    VerificationResult :=
  match parseResendSignatureHeader options.signatureHeader with
  | none => { ok := false, reason := some "missing signature header" }
  | some parsed =>
    let nowSeconds := (options.now.getD dateNowMs).fdiv 1000
    let tolerance := options.toleranceSeconds.getD 300
    if tolerance < Int.ofNat (nowSeconds - parsed.timestamp).natAbs then
      { ok := false, timestamp := some parsed.timestamp,
        reason := some "signature timestamp outside tolerance" }
    else
      let expected := computeResendSignature options.secret parsed.timestamp options.payload
      if timingSafeEqual expected parsed.signature = false then
        { ok := false, timestamp := some parsed.timestamp,
          reason := some "signature mismatch" }
      else { ok := true, timestamp := some parsed.timestamp }

/-- `createResendSignatureHeader`: the companion signer. -/
def createResendSignatureHeader (secret : String) (timestamp : Int)
    (payload : String) : String :=
  "t=" ++ intToString timestamp ++ ",v1=" ++ computeResendSignature secret timestamp payload

/-! ## JSON values (`Record<string, unknown>` payloads and `data` fields)

First-order mutual inductives (instead of a nested `List`) so that all
recursion over them is structural and kernel-reducible. -/

mutual
inductive Json where
  | null
  | bool (b : Bool)
  | num (n : Int)
  | str (s : String)
  | arr (items : JsonList)
  | obj (fields : JsonFields)
inductive JsonList where
  | nil
  | cons (hd : Json) (tl : JsonList)
inductive JsonFields where
  | nil
  | cons (key : String) (value : Json) (tl : JsonFields)
end

mutual
def Json.beq : Json → Json → Bool
  | .null, .null => true
  | .bool a, .bool b => a == b
  | .num a, .num b => a == b
  | .str a, .str b => a == b
  | .arr a, .arr b => JsonList.beq a b
  | .obj a, .obj b => JsonFields.beq a b
  | _, _ => false
def JsonList.beq : JsonList → JsonList → Bool
  | .nil, .nil => true
  | .cons a as, .cons b bs => Json.beq a b && JsonList.beq as bs
  | _, _ => false
def JsonFields.beq : JsonFields → JsonFields → Bool
  | .nil, .nil => true
  | .cons k a as, .cons k2 b bs => k == k2 && Json.beq a b && JsonFields.beq as bs
  | _, _ => false
end

/-- JS truthiness of a JSON value (`!data`). -/
def jsonTruthy : Json → Bool
  | .null => false
  | .bool b => b
  | .num n => n ≠ 0
  | .str s => s ≠ ""
  | .arr _ => true
  | .obj _ => true

/-- `typeof v === 'object'` for a JSON value (`null`, arrays and objects). -/
def jsonIsObjectType : Json → Bool
  | .null => true
  | .arr _ => true
  | .obj _ => true
  | _ => false

/-- JS object property lookup `o[key]`; `none` models `undefined` (also for
string-keyed access on arrays and primitives, as in the source's payloads). -/
def lookupField : JsonFields → String → Option Json
  | .nil, _ => none
  | .cons k v tl, key => if k = key then some v else lookupField tl key

def jsonField (j : Json) (key : String) : Option Json :=
  match j with
  | .obj fields => lookupField fields key
  | _ => none

/-- JSON string escaping as performed by `JSON.stringify`. -/
def escapeJsonChar (c : Char) : List Char :=
  if c = '"' then ['\\', '"']
  else if c = '\\' then ['\\', '\\']
  else if c = '\n' then ['\\', 'n']
  else if c = '\r' then ['\\', 'r']
  else if c = '\t' then ['\\', 't']
  else if c.toNat = 8 then ['\\', 'b']
  else if c.toNat = 12 then ['\\', 'f']
  else if c.toNat < 32 then ['\\', 'u', '0', '0', hexDigit (c.toNat / 16), hexDigit c.toNat]
  else [c]

/-- A JSON string literal: quotes around the escaped characters. -/
def quoteJson (s : String) : String :=
  ⟨'"' :: (s.data.map escapeJsonChar).flatten ++ ['"']⟩

mutual
/-- `JSON.stringify` (numbers are integral in this model). -/
def jsonStringify : Json → String
  | .null => "null"
  | .bool true => "true"
  | .bool false => "false"
  | .num n => intToString n
  | .str s => quoteJson s
  | .arr items => "[" ++ stringifyListItems items ++ "]"
  | .obj fields => "\x7b" ++ stringifyObjFields fields ++ "\x7d"
def stringifyListItems : JsonList → String
  | .nil => ""
  | .cons hd .nil => jsonStringify hd
  | .cons hd (.cons h2 tl) =>
    jsonStringify hd ++ "," ++ stringifyListItems (.cons h2 tl)
def stringifyObjFields : JsonFields → String
  | .nil => ""
  | .cons k v .nil => quoteJson k ++ ":" ++ jsonStringify v
  | .cons k v (.cons k2 v2 tl) =>
    quoteJson k ++ ":" ++ jsonStringify v ++ "," ++ stringifyObjFields (.cons k2 v2 tl)
end

/-! ## `src/index.ts`: template registry and resolver -/

/-- `template.includes('..')`. -/
def hasDotDot : List Char → Bool
  | '.' :: '.' :: _ => true
  | _ :: rest => hasDotDot rest
  | [] => false

/-- `.replace(/\.html$/i, '')`: strip one trailing `.html`, any case. -/
def stripHtmlExtension (l : List Char) : List Char :=
  if 5 ≤ l.length ∧ (l.drop (l.length - 5)).map Char.toLower = ['.', 'h', 't', 'm', 'l'] then
    l.take (l.length - 5)
  else l

/-- `normalizeTemplateName`: reject empty input and any input containing
`..`; otherwise trim, strip leading slashes and a trailing `.html`
(case-insensitive) and reject when nothing remains.  (The TS
`typeof template !== 'string'` arm is unreachable in this typed model.) -/
def normalizeTemplateName (template : String) : Except String String :=
  if template = "" then .error "Template is required"
  else if hasDotDot template.data then .error "Invalid template path"
  else
    let cleaned := stripHtmlExtension ((trimChars template.data).dropWhile (fun c => c = '/'))
    if cleaned = [] then .error "Template is required"
    else .ok ⟨cleaned⟩

/-- Normalize an absolute POSIX path's segments: drop empty and `.`
segments, let `..` pop (staying at the root). -/
def normalizeAbsSegments (segs : List (List Char)) : List (List Char) :=
  segs.foldl
    (fun acc seg =>
      if seg = [] ∨ seg = ['.'] then acc
      else if seg = ['.', '.'] then acc.dropLast
      else acc ++ [seg])
    []

def joinSegsChars : List (List Char) → List Char
  | [] => []
  | [s] => s
  | s :: rest => s ++ '/' :: joinSegsChars rest

/-- `path.resolve(base, rel)` on POSIX for an absolute `base`: an absolute
`rel` wins, otherwise append, then normalize segments. -/
def pathResolve (base rel : String) : String :=
  let fullChars :=
    match rel.data with
    | '/' :: _ => rel.data
    | _ => base.data ++ '/' :: rel.data
  ⟨'/' :: joinSegsChars (normalizeAbsSegments (splitOnChar '/' fullChars))⟩

/-- `resolveTemplatePath`, parameterized by the startup-scanned allowlist
(`allowedTemplates`, the JS `Set` as a list with membership) and the
template root directory.  It consults nothing else: in particular no
filesystem state. -/
def resolveTemplatePath (allowedTemplates : List String) (templatesDir : String)
    (template : String) : Except String String :=
  match normalizeTemplateName template with
  | .error e => .error e
  | .ok normalized =>
    if allowedTemplates.contains normalized = false then .error "Unknown template"
    else
      let resolved := pathResolve templatesDir (normalized ++ ".html")
      if isPrefixChars (templatesDir.data ++ ['/']) resolved.data = false ∧
          resolved ≠ templatesDir then
        .error "Template path outside allowed directory"
      else .ok resolved

/-! ## `src/index.ts`: request validation -/

/-- `EMAIL_REGEX = /^[^\s@]+@[^\s@]+\.[^\s@]+$/`.  The anchored pattern
matches exactly the strings of the form `a@t` where `a` is a non-empty
run without whitespace or `@`, and `t` is a non-empty run without
whitespace or `@` containing a dot that is neither its first nor its last
character (the classes allow dots, so only one interior dot is needed). -/
def splitAtChar (sep : Char) : List Char → Option (List Char × List Char)
  | [] => none
  | c :: rest =>
    if c = sep then some ([], rest)
    else (splitAtChar sep rest).map (fun p => (c :: p.1, p.2))

def hasInteriorDot (l : List Char) : Bool := ((l.drop 1).dropLast).contains '.'

def emailRegexTest (s : String) : Bool :=
  match splitAtChar '@' s.data with
  | none => false
  | some (localPart, domain) =>
    localPart ≠ [] && localPart.all (fun c => !jsWhitespace c) &&
      domain.all (fun c => !jsWhitespace c && c ≠ '@') && hasInteriorDot domain

/-- The untrusted body of `POST /send` (`Partial<SendRequest>`); absent
and `null` JSON fields are both `none`.  `metadata`/`callbackUrl` play no
part in validation and are omitted. -/
structure RawSendRequest where
  id : Option String := none
  channel : Option String := none
  template : Option String := none
  «to» : Option String := none
  subject : Option String := none
  data : Option Json := none

/-- The value returned by a successful `validateSendRequest`. -/
structure ValidatedSendRequest where
  id : String
  templateName : String
  «to» : String
  subject : String
  data : Json
  channel : String

/-- `validateSendRequest`: fail-fast checks in source order.  String
lengths are JS lengths (UTF-16 code units, `jsLength`); the data bound
compares `JSON.stringify(data).length` with 20000. -/
def validateSendRequest (allowedTemplates : List String) (body : RawSendRequest) :
    Except String ValidatedSendRequest :=
  match body.id with
  | none => .error "id is required"
  | some idRaw =>
    if idRaw = "" then .error "id is required"
    else if jsTrim idRaw = "" then .error "id is required"
    else
      let id := jsTrim idRaw
      if 120 < jsLength id then .error "id too long"
      else if body.channel ≠ some "email" then
        .error ("Unsupported channel: " ++ body.channel.getD "unknown")
      else
        match normalizeTemplateName (body.template.getD "") with
        | .error e => .error e
        | .ok templateName =>
          if allowedTemplates.contains templateName = false then .error "Unknown template"
          else
            match body.«to» with
            | none => .error "Valid \"to\" email is required"
            | some toRaw =>
              let «to» := jsTrim toRaw
              if «to» = "" ∨ 320 < jsLength «to» ∨ emailRegexTest «to» = false then
                .error "Valid \"to\" email is required"
              else
                let subject := jsTrim (body.subject.getD "Intellex notification")
                if subject = "" ∨ 180 < jsLength subject then
                  .error "subject is required and must be <= 180 characters"
                else
                  match body.data with
                  | none => .error "data must be an object"
                  | some d =>
                    if jsonTruthy d = false ∨ jsonIsObjectType d = false then
                      .error "data must be an object"
                    else if 20000 < jsLength (jsonStringify d) then
                      .error "data payload too large"
                    else .ok ⟨id, templateName, «to», subject, d, "email"⟩

/-! ## `src/index.ts`: webhook event normalization -/

inductive CommunicationStatus where
  | queued
  | sent
  | failed
  | delivered
  | bounced
  | complaint
  | dropped
deriving DecidableEq

/-- `readString`: a trimmed, non-empty string or nothing. -/
def readString (value : Option Json) : Option String :=
  match value with
  | some (.str s) => let trimmed := jsTrim s; if trimmed = "" then none else some trimmed
  | _ => none

/-- `EVENT_STATUS_ALIASES` lookup. -/
def statusAlias : String → Option CommunicationStatus
  | "delivered" => some .delivered
  | "bounced" => some .bounced
  | "complaint" => some .complaint
  | "complained" => some .complaint
  | "dropped" => some .dropped
  | "sent" => some .sent
  | "failed" => some .failed
  | "queued" => some .queued
  | _ => none

/-- `normalizeStatus`: lowercase, trim, strip one leading `email.`, then
look up the alias table. -/
def normalizeStatus (raw : String) : Option CommunicationStatus :=
  let loweredTrimmed := trimChars (raw.data.map Char.toLower)
  let lowered :=
    if isPrefixChars ['e', 'm', 'a', 'i', 'l', '.'] loweredTrimmed then
      loweredTrimmed.drop 6
    else loweredTrimmed
  statusAlias ⟨lowered⟩

/-- `getNestedValue`: walk a key path, returning `null`/`undefined` as
`none` whenever an intermediate value is falsy or not object-typed. -/
def getNestedValue (payload : Json) (pathParts : List String) : Option Json :=
  pathParts.foldl
    (fun cur part =>
      match cur with
      | none => none
      | some c =>
        if jsonTruthy c = false ∨ jsonIsObjectType c = false then none
        else jsonField c part)
    (some payload)

def messageIdPaths : List (List String) :=
  [["data", "email_id"], ["data", "id"], ["data", "message_id"], ["data", "messageId"],
   ["email_id"], ["message_id"], ["messageId"], ["id"]]

def timestampPaths : List (List String) :=
  [["data", "created_at"], ["data", "timestamp"], ["created_at"], ["timestamp"],
   ["event_timestamp"]]

/-- First path whose value reads as a non-empty string (`extractMessageId`). -/
def firstString (payload : Json) : List (List String) → Option String
  | [] => none
  | p :: rest =>
    match readString (getNestedValue payload p) with
    | some s => some s
    | none => firstString payload rest

def extractMessageId (payload : Json) : Option String :=
  firstString payload messageIdPaths

/-- The candidate loop of `extractStatus` over already-fetched field
values: first candidate that reads as a string and normalizes wins. -/
def statusFromCandidates : List (Option Json) → Option CommunicationStatus
  | [] => none
  | c :: rest =>
    match readString c with
    | none => statusFromCandidates rest
    | some s =>
      match normalizeStatus s with
      | some st => some st
      | none => statusFromCandidates rest

def extractStatus (payload : Json) : Option CommunicationStatus :=
  statusFromCandidates [jsonField payload "type", jsonField payload "event", jsonField payload "status"]

/-- The timestamp path loop of `extractTimestampMs`.  `dateParse` models
`Date.parse` (a `none` is `NaN`), `numParse` models `Number(...)`
restricted to finite integral results, `dateNowMs` is `Date.now()`.
A finite numeric value above `EPOCH_MS_THRESHOLD = 10^12` is epoch
milliseconds, otherwise epoch seconds scaled by 1000. -/
def timestampFromPaths (dateParse numParse : String → Option Int) (dateNowMs : Int)
    (payload : Json) : List (List String) → Int
  | [] => dateNowMs
  | p :: rest =>
    let value := getNestedValue payload p
    match value with
    | some (.num n) => if 1000000000000 < n then n else n * 1000
    | _ =>
      match readString value with
      | some s =>
        match dateParse s with
        | some parsed => parsed
        | none =>
          match numParse s with
          | some numeric => if 1000000000000 < numeric then numeric else numeric * 1000
          | none => timestampFromPaths dateParse numParse dateNowMs payload rest
      | none => timestampFromPaths dateParse numParse dateNowMs payload rest

def extractTimestampMs (dateParse numParse : String → Option Int) (dateNowMs : Int)
    (payload : Json) : Int :=
  timestampFromPaths dateParse numParse dateNowMs payload timestampPaths

/-- `ApiEventPayload` as built by `buildWebhookEvent` (`provider` is always
`"resend"`, `requestId` is never set on this path and is omitted). -/
structure ApiEventPayload where
  provider : String
  messageId : Option String
  status : CommunicationStatus
  timestamp : Int
  payload : Json

/-- `buildWebhookEvent`: no recognized status means no event. -/
def buildWebhookEvent (dateParse numParse : String → Option Int) (dateNowMs : Int)
    (payload : Json) : Option ApiEventPayload :=
  match extractStatus payload with
  | none => none
  | some status =>
    some ⟨"resend", extractMessageId payload, status,
      extractTimestampMs dateParse numParse dateNowMs payload, payload⟩

/-! ## `src/index.ts`: the `POST /webhooks/provider` handler -/

/-- The externally visible outcome of one webhook call: HTTP status,
response body, and the event forwarded to the downstream API (`none` when
nothing is forwarded; forwarding is fire-and-forget and does not affect
the response). -/
structure WebhookOutcome where
  status : Nat
  body : String
  forwarded : Option ApiEventPayload

/-- The `POST /webhooks/provider` handler: fail closed without a secret,
require the captured raw body, verify the signature (tolerance 300
seconds, `now` defaulted to `Date.now()`), then normalize-and-forward
best-effort and always acknowledge with an empty 204. -/
def webhookProviderHandler (dateParse numParse : String → Option Int)
    (dateNowMs : Int) (webhookSecret : Option String) (rawBody : Option String)
    (signatureHeader : HeaderValue) (parsedBody : Json) : WebhookOutcome :=
  match webhookSecret with
  | none => ⟨503, "EMAIL_WEBHOOK_SECRET not configured", none⟩
  | some secret =>
    match rawBody with
    | none => ⟨400, "Missing raw request body", none⟩
    | some raw =>
      let verification := verifyResendSignature dateNowMs
        { secret := secret, signatureHeader := signatureHeader, payload := raw,
          toleranceSeconds := some 300, now := none }
      if verification.ok = false then
        ⟨401, verification.reason.getD "Invalid signature", none⟩
      else
        ⟨204, "", buildWebhookEvent dateParse numParse dateNowMs parsedBody⟩

/-- JS `toUpperCase` restricted to the ASCII strings compared here. -/
def upperJs (s : String) : String := ⟨s.data.map Char.toUpper⟩

/-! ## Concrete requests and payloads used as witnesses -/

/-- A send request body whose id, channel, template and recipient pass
validation, with the subject and data left as parameters. -/
def validBody (subj : Option String) (d : Json) : RawSendRequest := {
  id := some "r1", channel := some "email", template := some "welcome",
  «to» := some "user@example.com", subject := subj, data := some d }

/-- 19991 ASCII characters; `{"k":"<this>"}` serializes to 19999 units. -/
def xRun19991 : String := ⟨List.replicate 19991 'x'⟩

def largeAsciiData : Json := .obj (.cons "k" (.str xRun19991) .nil)

/-- 10001 two-byte characters: the serialized form has 10009 UTF-16 units
but 20010 UTF-8 bytes. -/
def eAcuteRun10001 : String := ⟨List.replicate 10001 'é'⟩

def largeUnicodeData : Json := .obj (.cons "k" (.str eAcuteRun10001) .nil)

/-- A provider payload: `email.delivered` with nested message id and a
seconds-scale `created_at`. -/
def deliveredPayload : Json :=
  .obj (.cons "type" (.str "email.delivered")
    (.cons "data" (.obj (.cons "email_id" (.str "abc")
      (.cons "created_at" (.num 1700000000) .nil))) .nil))

/-- A provider payload whose type has no recognized status alias. -/
def unknownTypePayload : Json := .obj (.cons "type" (.str "email.opened") .nil)

/-- A small data object for subject-focused witnesses. -/
def smallData : Json := .obj (.cons "k" (.str "v") .nil)

/-- A payload with a milliseconds-scale `data.created_at`. -/
def msTimestampPayload : Json :=
  .obj (.cons "data" (.obj (.cons "created_at" (.num 2000000000000) .nil)) .nil)

/-! # Lemmas -/

theorem dropWhile_eq_self_of_all {p : Char → Bool} {l : List Char}
    (h : ∀ c ∈ l, p c = false) : l.dropWhile p = l := by
  cases l with
  | nil => rfl
  | cons c cs =>
    rw [List.dropWhile_cons]
    simp [h c (List.mem_cons_self c cs)]

theorem trimChars_eq_self {l : List Char}
    (h : ∀ c ∈ l, jsWhitespace c = false) : trimChars l = l := by
  unfold trimChars
  rw [dropWhile_eq_self_of_all h,
    dropWhile_eq_self_of_all (fun c hc => h c (List.mem_reverse.mp hc)),
    List.reverse_reverse]

theorem splitOnChar_of_not_mem {sep : Char} {l : List Char}
    (h : ∀ c ∈ l, c ≠ sep) : splitOnChar sep l = [l] := by
  induction l with
  | nil => rfl
  | cons c cs ih =>
    have hc : c ≠ sep := h c (List.mem_cons_self c cs)
    rw [splitOnChar, if_neg hc, ih (fun x hx => h x (List.mem_cons_of_mem c hx))]

theorem splitOnChar_append {sep : Char} {l₁ l₂ : List Char}
    (h : ∀ c ∈ l₁, c ≠ sep) :
    splitOnChar sep (l₁ ++ sep :: l₂) = l₁ :: splitOnChar sep l₂ := by
  induction l₁ with
  | nil =>
    simp only [List.nil_append]
    rw [splitOnChar, if_pos rfl]
  | cons c cs ih =>
    have hc : c ≠ sep := h c (List.mem_cons_self c cs)
    rw [List.cons_append, splitOnChar, if_neg hc,
      ih (fun x hx => h x (List.mem_cons_of_mem c hx))]

/-! ## Decimal printing facts -/

@[reducible] def isDecDigit (c : Char) : Prop := 48 ≤ c.toNat ∧ c.toNat ≤ 57

theorem digitChar_spec {d : Nat} (h : d < 10) :
    isDecDigit (digitChar d) ∧ (digitChar d).toNat = 48 + d := by
  interval_cases d <;> exact ⟨by decide, by decide⟩

theorem natDigitsAux_spec :
    ∀ fuel n, n < fuel →
      (∀ c ∈ natDigitsAux fuel n, isDecDigit c) ∧
      natDigitsAux fuel n ≠ [] ∧
      digitsToNat (natDigitsAux fuel n) = n := by
  intro fuel
  induction fuel with
  | zero => intro n h; omega
  | succ f ih =>
    intro n h
    by_cases h10 : n < 10
    · refine ⟨?_, ?_, ?_⟩
      · intro c hc
        rw [natDigitsAux, if_pos h10] at hc
        simp only [List.mem_singleton] at hc
        exact hc ▸ (digitChar_spec h10).1
      · rw [natDigitsAux, if_pos h10]; simp
      · rw [natDigitsAux, if_pos h10]
        simp [digitsToNat, (digitChar_spec h10).2]
    · have hdiv : n / 10 < f := by omega
      obtain ⟨hmem, hne, hval⟩ := ih (n / 10) hdiv
      have hmod : n % 10 < 10 := Nat.mod_lt _ (by omega)
      refine ⟨?_, ?_, ?_⟩
      · intro c hc
        rw [natDigitsAux, if_neg h10] at hc
        rcases List.mem_append.mp hc with h1 | h1
        · exact hmem c h1
        · simp only [List.mem_singleton] at h1
          exact h1 ▸ (digitChar_spec hmod).1
      · rw [natDigitsAux, if_neg h10]
        simp
      · rw [natDigitsAux, if_neg h10]
        unfold digitsToNat
        rw [List.foldl_append]
        unfold digitsToNat at hval
        rw [hval]
        simp [(digitChar_spec hmod).2]
        omega

theorem natDigits_mem {n : Nat} : ∀ c ∈ natDigits n, isDecDigit c :=
  (natDigitsAux_spec (n + 1) n (Nat.lt_succ_self n)).1

theorem natDigits_ne_nil {n : Nat} : natDigits n ≠ [] :=
  (natDigitsAux_spec (n + 1) n (Nat.lt_succ_self n)).2.1

theorem digitsToNat_natDigits {n : Nat} : digitsToNat (natDigits n) = n :=
  (natDigitsAux_spec (n + 1) n (Nat.lt_succ_self n)).2.2

theorem char_ne_of_toNat_ne {c d : Char} (h : c.toNat ≠ d.toNat) : c ≠ d :=
  fun hc => h (by rw [hc])

theorem isDecDigit_facts {c : Char} (h : isDecDigit c) :
    isDigitChar c = true ∧ jsWhitespace c = false ∧ c ≠ ',' ∧ c ≠ '=' ∧
      c ≠ '-' ∧ c ≠ '+' ∧ c ≠ '/' ∧ c ≠ '.' := by
  obtain ⟨h1, h2⟩ := h
  refine ⟨?_, ?_, ?_, ?_, ?_, ?_, ?_, ?_⟩
  · simp only [isDigitChar, Bool.and_eq_true, decide_eq_true_eq]
    exact ⟨h1, h2⟩
  · simp only [jsWhitespace, Bool.or_eq_false_iff, decide_eq_false_iff_not]
    refine ⟨⟨⟨char_ne_of_toNat_ne ?_, char_ne_of_toNat_ne ?_⟩,
      char_ne_of_toNat_ne ?_⟩, char_ne_of_toNat_ne ?_⟩
    · rw [show (' '.toNat) = 32 by decide]; omega
    · rw [show ('\t'.toNat) = 9 by decide]; omega
    · rw [show ('\n'.toNat) = 10 by decide]; omega
    · rw [show ('\r'.toNat) = 13 by decide]; omega
  · exact char_ne_of_toNat_ne (by rw [show (','.toNat) = 44 by decide]; omega)
  · exact char_ne_of_toNat_ne (by rw [show ('='.toNat) = 61 by decide]; omega)
  · exact char_ne_of_toNat_ne (by rw [show ('-'.toNat) = 45 by decide]; omega)
  · exact char_ne_of_toNat_ne (by rw [show ('+'.toNat) = 43 by decide]; omega)
  · exact char_ne_of_toNat_ne (by rw [show ('/'.toNat) = 47 by decide]; omega)
  · exact char_ne_of_toNat_ne (by rw [show ('.'.toNat) = 46 by decide]; omega)

theorem takeWhile_eq_self_of_all {p : Char → Bool} {l : List Char}
    (h : ∀ c ∈ l, p c = true) : l.takeWhile p = l := by
  induction l with
  | nil => rfl
  | cons c cs ih =>
    rw [List.takeWhile_cons, h c (List.mem_cons_self c cs)]
    simp [ih (fun x hx => h x (List.mem_cons_of_mem c hx))]

theorem parseDigits_natDigits {n : Nat} : parseDigits (natDigits n) = some n := by
  unfold parseDigits
  rw [takeWhile_eq_self_of_all (fun c hc => (isDecDigit_facts (natDigits_mem c hc)).1)]
  simp [List.isEmpty_iff, natDigits_ne_nil, digitsToNat_natDigits]

/-- Round trip for the header timestamp: printing then `parseInt`. -/
theorem parseIntJS_intToString {t : Int} :
    parseIntJS (intToString t).data = some t := by
  cases t with
  | ofNat n =>
    have hd : ∀ c ∈ natDigits n, isDecDigit c := natDigits_mem
    show parseIntJS (natDigits n) = some (n : Int)
    unfold parseIntJS
    rw [trimChars_eq_self (fun c hc => (isDecDigit_facts (hd c hc)).2.1)]
    rcases hne : natDigits n with _ | ⟨c, cs⟩
    · exact absurd hne natDigits_ne_nil
    · have hc : isDecDigit c := hd c (hne ▸ List.mem_cons_self c cs)
      have hcm : c ≠ '-' := (isDecDigit_facts hc).2.2.2.2.1
      have hcp : c ≠ '+' := (isDecDigit_facts hc).2.2.2.2.2.1
      have hpd : parseDigits (c :: cs) = some n := hne ▸ parseDigits_natDigits
      simp only [List.head?_cons, Option.some.injEq]
      rw [if_neg hcm, if_neg hcp, hpd]
      rfl
  | negSucc m =>
    have hd : ∀ c ∈ natDigits (m + 1), isDecDigit c := natDigits_mem
    show parseIntJS ('-' :: natDigits (m + 1)) = some (Int.negSucc m)
    unfold parseIntJS
    rw [trimChars_eq_self]
    · simp only [List.head?_cons, Option.some.injEq, if_pos rfl, List.drop_one,
        List.tail_cons]
      rw [parseDigits_natDigits]
      simp [Int.negSucc_eq]
    · intro c hc
      rcases List.mem_cons.mp hc with h1 | h1
      · subst h1; rfl
      · exact (isDecDigit_facts (hd c h1)).2.1

/-! ## Hex digest facts -/

theorem hexDigit_mem {n : Nat} : hexDigit n ∈ hexChars := by
  have h : n % 16 < 16 := Nat.mod_lt _ (by omega)
  unfold hexDigit
  set m := n % 16 with hm
  interval_cases m <;> decide

theorem hexEncodeChars_mem {bytes : List Nat} :
    ∀ c ∈ hexEncodeChars bytes, c ∈ hexChars := by
  induction bytes with
  | nil => intro c hc; cases hc
  | cons b rest ih =>
    intro c hc
    rw [hexEncodeChars] at hc
    rcases List.mem_cons.mp hc with h1 | h1
    · exact h1 ▸ hexDigit_mem
    · rcases List.mem_cons.mp h1 with h2 | h2
      · exact h2 ▸ hexDigit_mem
      · exact ih c h2

theorem hexEncodeChars_length {bytes : List Nat} :
    (hexEncodeChars bytes).length = 2 * bytes.length := by
  induction bytes with
  | nil => rfl
  | cons b rest ih => rw [hexEncodeChars]; simp [ih]; omega

/-- Every lowercase hex character is a plain ASCII character that the
header syntax treats as inert: not a separator, not `=`, not whitespace. -/
theorem hexChar_facts {c : Char} (h : c ∈ hexChars) :
    jsWhitespace c = false ∧ c ≠ ',' ∧ c ≠ '=' ∧ c ≠ '/' ∧ c.toNat < 128 := by
  fin_cases h <;> exact ⟨by decide, by decide, by decide, by decide, by decide⟩

theorem digestBytes_length {st : Hash8} : (digestBytes st).length = 32 := by
  simp [digestBytes, be32]

theorem sha256Bytes_length {msg : List Nat} : (sha256Bytes msg).length = 32 :=
  digestBytes_length

/-- The HMAC hex digest is 64 characters long. -/
theorem computeResendSignature_length {secret : String} {t : Int} {payload : String} :
    (computeResendSignature secret t payload).data.length = 64 := by
  show (hexEncodeChars (hmacSha256 _ _)).length = 64
  rw [hexEncodeChars_length]
  simp [hmacSha256, sha256Bytes_length]

theorem computeResendSignature_mem {secret : String} {t : Int} {payload : String} :
    ∀ c ∈ (computeResendSignature secret t payload).data, c ∈ hexChars :=
  hexEncodeChars_mem

/-! ## Parsing well-formed signature headers -/

/-- Characters allowed in the `v1=` value for the parse lemma: anything
that is not whitespace, not a comma and not an equals sign. -/
def signatureInert (c : Char) : Prop :=
  jsWhitespace c = false ∧ c ≠ ',' ∧ c ≠ '='

theorem intToString_inert {t : Int} :
    ∀ c ∈ (intToString t).data, signatureInert c := by
  have digitCase : ∀ n : Nat, ∀ d ∈ natDigits n, signatureInert d := by
    intro n d hd
    have h := isDecDigit_facts (natDigits_mem d hd)
    exact ⟨h.2.1, h.2.2.1, h.2.2.2.1⟩
  intro c hc
  cases t with
  | ofNat n => exact digitCase n c hc
  | negSucc m =>
    rcases List.mem_cons.mp hc with h1 | h1
    · subst h1; exact ⟨by decide, by decide, by decide⟩
    · exact digitCase (m + 1) c h1

theorem parseKeyValue_t {ts : List Char}
    (h : ∀ c ∈ ts, signatureInert c) :
    parseKeyValue ('t' :: '=' :: ts) = some (['t'], ts) := by
  unfold parseKeyValue
  rw [trimChars_eq_self]
  · have hsplit : splitOnChar '=' ('t' :: '=' :: ts) = ['t'] :: splitOnChar '=' ts := by
      have := @splitOnChar_append '=' ['t'] ts
        (by intro c hc; simp only [List.mem_singleton] at hc; subst hc; decide)
      simpa using this
    rw [if_neg (by simp), hsplit,
      splitOnChar_of_not_mem (fun c hc => (h c hc).2.2)]
    simp
  · intro c hc
    rcases List.mem_cons.mp hc with h1 | h1
    · subst h1; rfl
    · rcases List.mem_cons.mp h1 with h2 | h2
      · subst h2; rfl
      · exact (h c h2).1

theorem parseKeyValue_v1 {sig : List Char}
    (h : ∀ c ∈ sig, signatureInert c) :
    parseKeyValue ('v' :: '1' :: '=' :: sig) = some (['v', '1'], sig) := by
  unfold parseKeyValue
  rw [trimChars_eq_self]
  · have hsplit : splitOnChar '=' ('v' :: '1' :: '=' :: sig) =
        ['v', '1'] :: splitOnChar '=' sig := by
      have := @splitOnChar_append '=' ['v', '1'] sig
        (by intro c hc; fin_cases hc <;> decide)
      simpa using this
    rw [if_neg (by simp), hsplit,
      splitOnChar_of_not_mem (fun c hc => (h c hc).2.2)]
    simp
  · intro c hc
    rcases List.mem_cons.mp hc with h1 | h1
    · subst h1; rfl
    · rcases List.mem_cons.mp h1 with h2 | h2
      · subst h2; rfl
      · rcases List.mem_cons.mp h2 with h3 | h3
        · subst h3; rfl
        · exact (h c h3).1

theorem processSignaturePart_t {st : SignatureParseState} {t : Int} :
    processSignaturePart st ('t' :: '=' :: (intToString t).data) =
      { st with timestamp := some t } := by
  unfold processSignaturePart
  rw [parseKeyValue_t intToString_inert]
  simp [parseIntJS_intToString]

theorem processSignaturePart_v1 {st : SignatureParseState} {sig : List Char}
    (h : ∀ c ∈ sig, signatureInert c) :
    processSignaturePart st ('v' :: '1' :: '=' :: sig) =
      { st with signature := some sig } := by
  unfold processSignaturePart
  rw [parseKeyValue_v1 h]
  simp

/-- Parsing a header of the exact shape the signer produces:
`t=<decimal>` then `v1=<inert characters>`. -/
theorem parseResendSignatureHeader_form {t : Int} {sig : String}
    (hsig : ∀ c ∈ sig.data, signatureInert c) (hne : sig ≠ "") :
    parseResendSignatureHeader
      (.str ("t=" ++ intToString t ++ ",v1=" ++ sig)) = some ⟨t, sig⟩ := by
  have hdata : ("t=" ++ intToString t ++ ",v1=" ++ sig).data =
      ('t' :: '=' :: (intToString t).data) ++ ',' :: ('v' :: '1' :: '=' :: sig.data) := by
    simp [String.data_append]
  have hheader : ("t=" ++ intToString t ++ ",v1=" ++ sig) ≠ "" := by
    intro h
    have h2 := congrArg String.data h
    rw [hdata] at h2
    simp at h2
  have hsplit : splitOnChar ',' ("t=" ++ intToString t ++ ",v1=" ++ sig).data =
      ('t' :: '=' :: (intToString t).data) :: [('v' :: '1' :: '=' :: sig.data)] := by
    rw [hdata, splitOnChar_append (by
      intro c hc
      rcases List.mem_cons.mp hc with h1 | h1
      · subst h1; decide
      · rcases List.mem_cons.mp h1 with h2 | h2
        · subst h2; decide
        · exact (intToString_inert c h2).2.1)]
    rw [splitOnChar_of_not_mem (by
      intro c hc
      rcases List.mem_cons.mp hc with h1 | h1
      · subst h1; decide
      · rcases List.mem_cons.mp h1 with h2 | h2
        · subst h2; decide
        · rcases List.mem_cons.mp h2 with h3 | h3
          · subst h3; decide
          · exact (hsig c h3).2.1)]
  have hdne : sig.data ≠ [] := by
    intro h
    exact hne (by cases sig; simp_all)
  unfold parseResendSignatureHeader
  simp only [headerRaw]
  rw [if_neg hheader]
  simp only [hsplit, List.foldl_cons, List.foldl_nil]
  rw [processSignaturePart_t, processSignaturePart_v1 hsig]
  simp [hdne]

/-! ## Verification outcomes -/

theorem timingSafeEqual_self {s : String} : timingSafeEqual s s = true := by
  unfold timingSafeEqual
  simp

/-- A parsed header whose timestamp lies outside the tolerance window is
rejected with the tolerance reason, whatever the signature value. -/
theorem verify_outside_tolerance {dateNowMs : Int} {secret payload : String}
    {hv : HeaderValue} {t : Int} {sig : String} {tolOpt nowOpt : Option Int}
    (hparse : parseResendSignatureHeader hv = some ⟨t, sig⟩)
    (hfar : tolOpt.getD 300 < Int.ofNat (((nowOpt.getD dateNowMs).fdiv 1000) - t).natAbs) :
    verifyResendSignature dateNowMs
      { secret := secret, signatureHeader := hv, payload := payload,
        toleranceSeconds := tolOpt, now := nowOpt } =
      { ok := false, timestamp := some t,
        reason := some "signature timestamp outside tolerance" } := by
  unfold verifyResendSignature
  rw [hparse]
  simp only
  rw [if_pos hfar]

/-- Verifying the header produced by the companion signer succeeds whenever
the effective clock is within tolerance of the signing timestamp. -/
theorem verify_createHeader_ok {dateNowMs : Int} (secret payload : String) (t : Int)
    {tolOpt nowOpt : Option Int}
    (hclose : Int.ofNat (((nowOpt.getD dateNowMs).fdiv 1000) - t).natAbs ≤ tolOpt.getD 300) :
    verifyResendSignature dateNowMs
      { secret := secret,
        signatureHeader := .str (createResendSignatureHeader secret t payload),
        payload := payload, toleranceSeconds := tolOpt, now := nowOpt } =
      { ok := true, timestamp := some t, reason := none } := by
  have hsig : ∀ c ∈ (computeResendSignature secret t payload).data, signatureInert c := by
    intro c hc
    have h := hexChar_facts (computeResendSignature_mem c hc)
    exact ⟨h.1, h.2.1, h.2.2.1⟩
  have hne : computeResendSignature secret t payload ≠ "" := by
    intro h
    have h64 := @computeResendSignature_length secret t payload
    rw [h] at h64
    simp at h64
  unfold verifyResendSignature
  rw [show createResendSignatureHeader secret t payload =
    "t=" ++ intToString t ++ ",v1=" ++ computeResendSignature secret t payload from rfl]
  rw [parseResendSignatureHeader_form hsig hne]
  simp only
  rw [if_neg (by omega), if_neg (by rw [timingSafeEqual_self]; simp)]

/-! # Claims -/

/-- **C1** (amended).  For every secret, integer timestamp, payload and
non-negative tolerance, verifying the header produced by the companion
signer over the same payload succeeds — with `now` equal to the signing
timestamp expressed in the milliseconds `verifyResendSignature` expects,
i.e. `now = timestamp * 1000`. -/
theorem resend_sign_verify_roundtrip (secret payload : String) (t tol : Int)
    (htol : 0 ≤ tol) (dateNowMs : Int) :
    verifyResendSignature dateNowMs
      { secret := secret,
        signatureHeader := .str (createResendSignatureHeader secret t payload),
        payload := payload, toleranceSeconds := some tol, now := some (t * 1000) } =
      { ok := true, timestamp := some t, reason := none } := by
  apply verify_createHeader_ok
  have : ((t * 1000 : Int).fdiv 1000) = t := Int.mul_fdiv_cancel _ (by norm_num)
  simp [this, htol]

/-- Witness for C1 (amended): a concrete signer/verifier round trip. -/
theorem resend_sign_verify_roundtrip_witness :
    verifyResendSignature 0
      { secret := "test-secret",
        signatureHeader := .str (createResendSignatureHeader "test-secret" 1700000000 "x"),
        payload := "x", toleranceSeconds := some 300, now := some 1700000000000 } =
      { ok := true, timestamp := some 1700000000, reason := none } := by
  have h := resend_sign_verify_roundtrip "test-secret" "x" 1700000000 300 (by norm_num) 0
  rw [show ((1700000000 : Int) * 1000) = 1700000000000 by norm_num] at h
  exact h

/-- **C1** counterexample to the claim as stated: passing the signing
timestamp itself (seconds) as `now` (milliseconds) puts the verifier's
clock far outside tolerance, so verification fails instead of returning
`ok = true`. -/
theorem resend_sign_verify_now_seconds_fails :
    verifyResendSignature 0
      { secret := "s",
        signatureHeader := .str (createResendSignatureHeader "s" 1700000000 "p"),
        payload := "p", toleranceSeconds := some 300, now := some 1700000000 } =
      { ok := false, timestamp := some 1700000000,
        reason := some "signature timestamp outside tolerance" } := by
  have hsig : ∀ c ∈ (computeResendSignature "s" 1700000000 "p").data, signatureInert c := by
    intro c hc
    have h := hexChar_facts (computeResendSignature_mem c hc)
    exact ⟨h.1, h.2.1, h.2.2.1⟩
  have hne : computeResendSignature "s" 1700000000 "p" ≠ "" := by
    intro h
    have h64 := @computeResendSignature_length "s" 1700000000 "p"
    rw [h] at h64
    simp at h64
  apply @verify_outside_tolerance 0 "s" "p" _ 1700000000
    (computeResendSignature "s" 1700000000 "p") (some 300) (some 1700000000)
  · rw [show createResendSignatureHeader "s" 1700000000 "p" =
      "t=" ++ intToString 1700000000 ++ ",v1=" ++ computeResendSignature "s" 1700000000 "p" from rfl]
    exact parseResendSignatureHeader_form hsig hne
  · norm_num
    rw [show ((1700000000 : Int).fdiv 1000) = 1700000 by norm_num [Int.fdiv]]
    norm_num

/-- **C2**.  With a well-formed header carrying timestamp `t`, whenever
`|floor(now / 1000) - t|` exceeds the tolerance the verifier rejects with
reason `"signature timestamp outside tolerance"` — for every signature
value, in particular the correct HMAC, and symmetrically for timestamps
in the past and in the future (the absolute value covers both signs). -/
theorem resend_verify_rejects_outside_tolerance {dateNowMs : Int}
    {secret payload : String} {hv : HeaderValue} {t : Int} {sig : String}
    {tol now : Int}
    (hparse : parseResendSignatureHeader hv = some ⟨t, sig⟩)
    (hfar : tol < Int.ofNat ((now.fdiv 1000) - t).natAbs) :
    verifyResendSignature dateNowMs
      { secret := secret, signatureHeader := hv, payload := payload,
        toleranceSeconds := some tol, now := some now } =
      { ok := false, timestamp := some t,
        reason := some "signature timestamp outside tolerance" } :=
  verify_outside_tolerance hparse (by simpa using hfar)

/-- Witness for C2: a correct signature for timestamp 1700000000 is
rejected one hour later (tolerance 300 s), and symmetrically one hour
early. -/
theorem resend_verify_rejects_outside_tolerance_witness :
    (verifyResendSignature 0
      { secret := "test-secret",
        signatureHeader := .str (createResendSignatureHeader "test-secret" 1700000000 "p"),
        payload := "p", toleranceSeconds := some 300, now := some 1700003600000 } =
      { ok := false, timestamp := some 1700000000,
        reason := some "signature timestamp outside tolerance" }) ∧
    (verifyResendSignature 0
      { secret := "test-secret",
        signatureHeader := .str (createResendSignatureHeader "test-secret" 1700000000 "p"),
        payload := "p", toleranceSeconds := some 300, now := some 1699996400000 } =
      { ok := false, timestamp := some 1700000000,
        reason := some "signature timestamp outside tolerance" }) := by
  have hsig : ∀ c ∈ (computeResendSignature "test-secret" 1700000000 "p").data,
      signatureInert c := by
    intro c hc
    have h := hexChar_facts (computeResendSignature_mem c hc)
    exact ⟨h.1, h.2.1, h.2.2.1⟩
  have hne : computeResendSignature "test-secret" 1700000000 "p" ≠ "" := by
    intro h
    have h64 := @computeResendSignature_length "test-secret" 1700000000 "p"
    rw [h] at h64
    simp at h64
  have hparse := @parseResendSignatureHeader_form 1700000000
    (computeResendSignature "test-secret" 1700000000 "p") hsig hne
  constructor
  · apply resend_verify_rejects_outside_tolerance hparse
    rw [show ((1700003600000 : Int).fdiv 1000) = 1700003600 by norm_num [Int.fdiv]]
    norm_num
  · apply resend_verify_rejects_outside_tolerance hparse
    rw [show ((1699996400000 : Int).fdiv 1000) = 1699996400 by norm_num [Int.fdiv]]
    norm_num

/-- **C9**.  A header that is absent, or that does not parse to a usable
`t` entry and a non-empty `v1` entry, is rejected with reason
`"missing signature header"` independently of the secret, payload,
tolerance and clock (so before any tolerance check or HMAC comparison);
and parts with unrecognized keys leave the parse state untouched.  The
last conjunct records that an absent header never parses. -/
theorem resend_verify_missing_header :
    (∀ (dateNowMs : Int) (secret payload : String) (tolOpt nowOpt : Option Int)
        (hv : HeaderValue),
      parseResendSignatureHeader hv = none →
      verifyResendSignature dateNowMs
        { secret := secret, signatureHeader := hv, payload := payload,
          toleranceSeconds := tolOpt, now := nowOpt } =
        { ok := false, timestamp := none, reason := some "missing signature header" }) ∧
    (∀ (st : SignatureParseState) (part key value : List Char),
      parseKeyValue part = some (key, value) →
      key ≠ ['t'] → key ≠ ['v', '1'] →
      processSignaturePart st part = st) ∧
    parseResendSignatureHeader .undef = none := by
  refine ⟨?_, ?_, rfl⟩
  · intro dateNowMs secret payload tolOpt nowOpt hv hparse
    unfold verifyResendSignature
    rw [hparse]
  · intro st part key value hkv hkt hkv1
    unfold processSignaturePart
    rw [hkv]
    simp [hkt, hkv1]

/-- Witness for C9: an undefined header, an empty-array header, a header
missing `v1`, one with an empty `v1`, and an unrecognized-key part. -/
theorem resend_verify_missing_header_witness :
    verifyResendSignature 0
      { secret := "s", signatureHeader := .undef, payload := "p",
        toleranceSeconds := none, now := none } =
      { ok := false, timestamp := none, reason := some "missing signature header" } ∧
    verifyResendSignature 0
      { secret := "s", signatureHeader := .arr [], payload := "p",
        toleranceSeconds := none, now := none } =
      { ok := false, timestamp := none, reason := some "missing signature header" } ∧
    verifyResendSignature 0
      { secret := "s", signatureHeader := .str "t=100,x=1", payload := "p",
        toleranceSeconds := none, now := none } =
      { ok := false, timestamp := none, reason := some "missing signature header" } ∧
    verifyResendSignature 0
      { secret := "s", signatureHeader := .str "t=100,v1=", payload := "p",
        toleranceSeconds := none, now := none } =
      { ok := false, timestamp := none, reason := some "missing signature header" } ∧
    processSignaturePart ⟨some 100, none⟩ ('x' :: '=' :: ['1']) = ⟨some 100, none⟩ := by
  refine ⟨?_, ?_, ?_, ?_, ?_⟩
  · exact resend_verify_missing_header.1 0 "s" "p" none none .undef (by decide)
  · exact resend_verify_missing_header.1 0 "s" "p" none none (.arr []) (by decide)
  · exact resend_verify_missing_header.1 0 "s" "p" none none (.str "t=100,x=1") (by decide)
  · exact resend_verify_missing_header.1 0 "s" "p" none none (.str "t=100,v1=") (by decide)
  · exact resend_verify_missing_header.2.1 ⟨some 100, none⟩ _ ['x'] ['1']
      (by decide) (by decide) (by decide)

/-! ## Case-sensitivity of the signature comparison (C10) -/

theorem utf8EncodeChar_ascii {c : Char} (h : c.toNat < 128) :
    utf8EncodeChar c = [c.toNat] := by
  unfold utf8EncodeChar
  rw [if_pos h]

theorem utf8Bytes_ascii_chars {l : List Char} (h : ∀ c ∈ l, c.toNat < 128) :
    (l.map utf8EncodeChar).flatten = l.map Char.toNat := by
  induction l with
  | nil => rfl
  | cons c cs ih =>
    simp only [List.map_cons, List.flatten_cons,
      utf8EncodeChar_ascii (h c (List.mem_cons_self c cs)),
      ih (fun x hx => h x (List.mem_cons_of_mem c hx))]
    rfl

theorem hexChar_upper_facts {c : Char} (h : c ∈ hexChars) :
    signatureInert c.toUpper ∧ c.toUpper.toNat < 128 ∧ c.toNat < 128 ∧
      (c.isAlpha = false → c.toUpper = c) := by
  fin_cases h <;>
    exact ⟨⟨by decide, by decide, by decide⟩, by decide, by decide, by intro h; first | rfl | cases h⟩

/-- Uppercasing a lowercase-hex string with at least one letter changes
its character codes somewhere. -/
theorem hex_upper_toNat_ne {l : List Char}
    (hhex : ∀ c ∈ l, c ∈ hexChars) (halpha : ∃ c ∈ l, c.isAlpha) :
    l.map Char.toNat ≠ (l.map Char.toUpper).map Char.toNat := by
  induction l with
  | nil => obtain ⟨c, hc, _⟩ := halpha; cases hc
  | cons c cs ih =>
    by_cases hca : c.isAlpha = true
    · have hmem : c ∈ hexChars := hhex c (List.mem_cons_self c cs)
      have hne : c.toNat ≠ c.toUpper.toNat := by
        fin_cases hmem <;> first | decide | exact absurd hca (by decide)
      simp only [List.map_cons, ne_eq, List.cons.injEq, not_and]
      intro h1
      exact absurd h1 hne
    · have hmem : c ∈ hexChars := hhex c (List.mem_cons_self c cs)
      have hfix : c.toUpper = c :=
        (hexChar_upper_facts hmem).2.2.2 (by simpa using hca)
      have htail : ∃ d ∈ cs, d.isAlpha := by
        obtain ⟨d, hd, hda⟩ := halpha
        rcases List.mem_cons.mp hd with h1 | h1
        · exact absurd (h1 ▸ hda) (by simpa using hca)
        · exact ⟨d, h1, hda⟩
      have := ih (fun x hx => hhex x (List.mem_cons_of_mem c hx)) htail
      simp only [List.map_cons, hfix, ne_eq, List.cons.injEq, not_and]
      intro _
      exact this

/-- **C10**.  The signature comparison is byte-exact on the hex string:
within tolerance, a header carrying the correct digest with its letters
uppercased is rejected with reason `"signature mismatch"`, provided the
digest contains at least one alphabetic hex character. -/
theorem resend_verify_uppercase_hex_mismatch {dateNowMs : Int}
    {secret payload : String} {t tol now : Int}
    (hclose : Int.ofNat ((now.fdiv 1000) - t).natAbs ≤ tol)
    (halpha : ∃ c ∈ (computeResendSignature secret t payload).data, c.isAlpha) :
    verifyResendSignature dateNowMs
      { secret := secret,
        signatureHeader := .str ("t=" ++ intToString t ++ ",v1=" ++
          upperJs (computeResendSignature secret t payload)),
        payload := payload, toleranceSeconds := some tol, now := some now } =
      { ok := false, timestamp := some t, reason := some "signature mismatch" } := by
  set digest := computeResendSignature secret t payload with hdigest
  have hhex : ∀ c ∈ digest.data, c ∈ hexChars := computeResendSignature_mem
  have hupper : ∀ c ∈ (upperJs digest).data, signatureInert c := by
    intro c hc
    simp only [upperJs, List.mem_map] at hc
    obtain ⟨d, hd, rfl⟩ := hc
    exact (hexChar_upper_facts (hhex d hd)).1
  have hne : upperJs digest ≠ "" := by
    intro h
    have hd := congrArg (fun s => s.data.length) h
    simp only [upperJs, List.length_map] at hd
    rw [hdigest, computeResendSignature_length] at hd
    simp at hd
  have hbytes : timingSafeEqual digest (upperJs digest) = false := by
    have hascii : ∀ c ∈ digest.data, c.toNat < 128 :=
      fun c hc => (hexChar_upper_facts (hhex c hc)).2.2.1
    have hascii2 : ∀ c ∈ (upperJs digest).data, c.toNat < 128 := by
      intro c hc
      simp only [upperJs, List.mem_map] at hc
      obtain ⟨d, hd, rfl⟩ := hc
      exact (hexChar_upper_facts (hhex d hd)).2.1
    have h1 : utf8Bytes digest = digest.data.map Char.toNat :=
      utf8Bytes_ascii_chars hascii
    have h2 : utf8Bytes (upperJs digest) = (digest.data.map Char.toUpper).map Char.toNat :=
      utf8Bytes_ascii_chars hascii2
    have hneq : utf8Bytes digest ≠ utf8Bytes (upperJs digest) := by
      rw [h1, h2]
      exact hex_upper_toNat_ne hhex halpha
    unfold timingSafeEqual
    by_cases hlen : (utf8Bytes digest).length ≠ (utf8Bytes (upperJs digest)).length
    · rw [if_pos hlen]
    · rw [if_neg hlen]
      exact beq_eq_false_iff_ne.mpr hneq
  unfold verifyResendSignature
  rw [parseResendSignatureHeader_form hupper hne]
  simp only [Option.getD_some]
  rw [if_neg (by omega), if_pos (by rw [hbytes])]

set_option maxRecDepth 1000000 in
/-- Witness for C10: concrete secret, timestamp and payload whose digest
contains letters; its uppercased form is rejected as a mismatch. -/
theorem resend_verify_uppercase_hex_mismatch_witness :
    verifyResendSignature 0
      { secret := "test-secret",
        signatureHeader := .str ("t=" ++ intToString 1700000000 ++ ",v1=" ++
          upperJs (computeResendSignature "test-secret" 1700000000 "x")),
        payload := "x", toleranceSeconds := some 300, now := some 1700000000000 } =
      { ok := false, timestamp := some 1700000000,
        reason := some "signature mismatch" } := by
  apply resend_verify_uppercase_hex_mismatch
  · rw [show ((1700000000000 : Int).fdiv 1000) = 1700000000 by norm_num [Int.fdiv]]
    norm_num
  · decide

/-! ## Template resolution (C3, C4) -/

/-- **C3**.  A raw template name whose normalized form is not in the
startup-scanned allowlist is rejected with `"Unknown template"`, for
every allowlist and root directory — membership in the allowlist set is
necessary for success (the resolver consults no other state, in
particular no filesystem, so names added to disk after the scan stay
unresolvable). -/
theorem resolveTemplatePath_of_normalized {allowed : List String}
    {dir template n : String} (hn : normalizeTemplateName template = .ok n) :
    resolveTemplatePath allowed dir template =
      (if allowed.contains n = false then .error "Unknown template"
       else if isPrefixChars (dir.data ++ ['/'])
           (pathResolve dir (n ++ ".html")).data = false ∧
           pathResolve dir (n ++ ".html") ≠ dir then
         .error "Template path outside allowed directory"
       else .ok (pathResolve dir (n ++ ".html"))) := by
  unfold resolveTemplatePath
  rw [hn]

theorem resolve_unknown_template_rejected :
    (∀ (allowed : List String) (dir template n : String),
      normalizeTemplateName template = .ok n →
      allowed.contains n = false →
      resolveTemplatePath allowed dir template = .error "Unknown template") ∧
    (∀ (allowed : List String) (dir template p : String),
      resolveTemplatePath allowed dir template = .ok p →
      ∃ n, normalizeTemplateName template = .ok n ∧ allowed.contains n = true) := by
  constructor
  · intro allowed dir template n hn hc
    rw [resolveTemplatePath_of_normalized hn, if_pos hc]
  · intro allowed dir template p hp
    rcases hn : normalizeTemplateName template with e | n
    · unfold resolveTemplatePath at hp
      rw [hn] at hp
      cases hp
    · rw [resolveTemplatePath_of_normalized hn] at hp
      cases hc : allowed.contains n with
      | false => rw [if_pos hc] at hp; cases hp
      | true => exact ⟨n, rfl, hc⟩

/-- Witness for C3: `"missing"` normalizes but is not allowlisted and is
rejected; a successful resolution of `"welcome"` implies its membership. -/
theorem resolve_unknown_template_rejected_witness :
    resolveTemplatePath ["welcome"] "/app/templates" "missing" = .error "Unknown template" ∧
    ∃ n, normalizeTemplateName "welcome" = .ok n ∧ ["welcome"].contains n = true := by
  constructor
  · exact resolve_unknown_template_rejected.1 ["welcome"] "/app/templates" "missing"
      "missing" (by rfl) (by decide)
  · exact resolve_unknown_template_rejected.2 ["welcome"] "/app/templates" "welcome"
      "/app/templates/welcome.html" (by rfl)

/-- **C4**.  Any template identifier containing `..` is rejected with
`"Invalid template path"` independently of the allowlist and root (so
before any allowlist lookup or path resolution), and an allowlisted name
whose resolved path is neither the root itself nor strictly under
root-plus-separator is rejected with
`"Template path outside allowed directory"`; in both cases resolution
returns an error, so no path is ever produced for a read. -/
theorem resolve_traversal_rejected :
    (∀ (allowed : List String) (dir template : String),
      hasDotDot template.data = true →
      resolveTemplatePath allowed dir template = .error "Invalid template path") ∧
    (∀ (allowed : List String) (dir template n : String),
      normalizeTemplateName template = .ok n →
      allowed.contains n = true →
      isPrefixChars (dir.data ++ ['/']) (pathResolve dir (n ++ ".html")).data = false →
      pathResolve dir (n ++ ".html") ≠ dir →
      resolveTemplatePath allowed dir template =
        .error "Template path outside allowed directory") := by
  constructor
  · intro allowed dir template hdot
    have hne : template ≠ "" := by
      intro h
      subst h
      cases hdot
    unfold resolveTemplatePath normalizeTemplateName
    rw [if_neg hne, if_pos hdot]
  · intro allowed dir template n hn hc hpre hroot
    rw [resolveTemplatePath_of_normalized hn, if_neg (by rw [hc]; simp),
      if_pos ⟨hpre, hroot⟩]

/-- Witness for C4: `"../secret"` is rejected as an invalid path for any
allowlist, and a root ending in a slash makes the resolved path fail the
prefix check and be rejected as outside the allowed directory. -/
theorem resolve_traversal_rejected_witness :
    resolveTemplatePath [] "/app/templates" "../secret" = .error "Invalid template path" ∧
    resolveTemplatePath ["n"] "/a/" "n" = .error "Template path outside allowed directory" := by
  constructor
  · exact resolve_traversal_rejected.1 [] "/app/templates" "../secret" (by decide)
  · exact resolve_traversal_rejected.2 ["n"] "/a/" "n" "n"
      (by rfl) (by decide) (by decide) (by decide)

/-! ## Request validation (C5, C6) -/

/-- Evaluation of `validateSendRequest` once the id, channel, template and
recipient checks pass: only the subject and data checks remain. -/
theorem validateSendRequest_eq {allowed : List String}
    {idRaw tmpl toRaw : String} {subjOpt : Option String} {d : Json} {n : String}
    (hid1 : idRaw ≠ "") (hid2 : jsTrim idRaw ≠ "")
    (hid3 : jsLength (jsTrim idRaw) ≤ 120)
    (htpl : normalizeTemplateName tmpl = .ok n) (hmem : allowed.contains n = true)
    (hto1 : jsTrim toRaw ≠ "") (hto2 : jsLength (jsTrim toRaw) ≤ 320)
    (hto3 : emailRegexTest (jsTrim toRaw) = true) :
    validateSendRequest allowed
      ⟨some idRaw, some "email", some tmpl, some toRaw, subjOpt, some d⟩ =
      (if jsTrim (subjOpt.getD "Intellex notification") = "" ∨
          180 < jsLength (jsTrim (subjOpt.getD "Intellex notification")) then
        .error "subject is required and must be <= 180 characters"
      else if jsonTruthy d = false ∨ jsonIsObjectType d = false then
        .error "data must be an object"
      else if 20000 < jsLength (jsonStringify d) then
        .error "data payload too large"
      else .ok ⟨jsTrim idRaw, n, jsTrim toRaw,
        jsTrim (subjOpt.getD "Intellex notification"), d, "email"⟩) := by
  have hch : ¬((some "email" : Option String) ≠ some "email") := by simp
  have hidlen : ¬(120 < jsLength (jsTrim idRaw)) := by omega
  have hmem2 : ¬(allowed.contains n = false) := by rw [hmem]; simp
  have hto : ¬(jsTrim toRaw = "" ∨ 320 < jsLength (jsTrim toRaw) ∨
      emailRegexTest (jsTrim toRaw) = false) := by
    simp only [not_or]
    exact ⟨hto1, by omega, by rw [hto3]; simp⟩
  unfold validateSendRequest
  simp only [Option.getD_some, htpl]
  rw [if_neg hid1, if_neg hid2, if_neg hidlen, if_neg hch, if_neg hmem2, if_neg hto]

/-- **C5** (amended).  Once the id, channel, template, recipient, subject
and data-shape checks pass, the validator rejects with
`"data payload too large"` exactly when the JS length of
`JSON.stringify(data)` (UTF-16 code units) exceeds 20000; otherwise the
request is accepted. -/
theorem validate_data_size_boundary {allowed : List String}
    {idRaw tmpl toRaw : String} {subjOpt : Option String} {d : Json} {n : String}
    (hid1 : idRaw ≠ "") (hid2 : jsTrim idRaw ≠ "")
    (hid3 : jsLength (jsTrim idRaw) ≤ 120)
    (htpl : normalizeTemplateName tmpl = .ok n) (hmem : allowed.contains n = true)
    (hto1 : jsTrim toRaw ≠ "") (hto2 : jsLength (jsTrim toRaw) ≤ 320)
    (hto3 : emailRegexTest (jsTrim toRaw) = true)
    (hsub1 : jsTrim (subjOpt.getD "Intellex notification") ≠ "")
    (hsub2 : jsLength (jsTrim (subjOpt.getD "Intellex notification")) ≤ 180)
    (hd1 : jsonTruthy d = true) (hd2 : jsonIsObjectType d = true) :
    (validateSendRequest allowed
        ⟨some idRaw, some "email", some tmpl, some toRaw, subjOpt, some d⟩ =
        .error "data payload too large" ↔
      20000 < jsLength (jsonStringify d)) ∧
    (jsLength (jsonStringify d) ≤ 20000 →
      validateSendRequest allowed
        ⟨some idRaw, some "email", some tmpl, some toRaw, subjOpt, some d⟩ =
        .ok ⟨jsTrim idRaw, n, jsTrim toRaw,
          jsTrim (subjOpt.getD "Intellex notification"), d, "email"⟩) := by
  rw [validateSendRequest_eq hid1 hid2 hid3 htpl hmem hto1 hto2 hto3]
  rw [if_neg (by simp only [not_or]; exact ⟨hsub1, by omega⟩)]
  rw [if_neg (by rw [hd1, hd2]; simp)]
  constructor
  · constructor
    · intro h
      by_contra hle
      rw [if_neg hle] at h
      cases h
    · intro h
      rw [if_pos h]
  · intro h
    rw [if_neg (by omega)]

/-! ### Serialized-length computations for the witness bodies -/

theorem jsLength_data {s : String} : jsLength s = (s.data.map utf16Units).sum := rfl

theorem jsLength_append {a b : String} :
    jsLength (a ++ b) = jsLength a + jsLength b := by
  simp [jsLength_data, String.data_append]

theorem escapeJsonChar_plain {c : Char} (h32 : 32 ≤ c.toNat)
    (hq : c ≠ '"') (hb : c ≠ '\\') : escapeJsonChar c = [c] := by
  unfold escapeJsonChar
  rw [if_neg hq, if_neg hb,
    if_neg (char_ne_of_toNat_ne (by rw [show ('\n'.toNat) = 10 by decide]; omega)),
    if_neg (char_ne_of_toNat_ne (by rw [show ('\r'.toNat) = 13 by decide]; omega)),
    if_neg (char_ne_of_toNat_ne (by rw [show ('\t'.toNat) = 9 by decide]; omega)),
    if_neg (by omega), if_neg (by omega), if_neg (by omega)]

theorem map_escape_replicate {n : Nat} {c : Char} (h : escapeJsonChar c = [c]) :
    ((List.replicate n c).map escapeJsonChar).flatten = List.replicate n c := by
  induction n with
  | zero => rfl
  | succ m ih => simp only [List.replicate_succ, List.map_cons, List.flatten_cons, h, ih]; rfl

theorem quoteJson_replicate {n : Nat} {c : Char} (h : escapeJsonChar c = [c]) :
    (quoteJson ⟨List.replicate n c⟩).data =
      '"' :: (List.replicate n c ++ ['"']) := by
  show '"' :: (((List.replicate n c).map escapeJsonChar).flatten ++ ['"']) = _
  rw [map_escape_replicate h]

theorem sum_utf16_replicate {n : Nat} {c : Char} (h : utf16Units c = 1) :
    ((List.replicate n c).map utf16Units).sum = n := by
  induction n with
  | zero => rfl
  | succ m ih => simp [List.replicate_succ, h, ih]; omega

theorem jsLength_quote_replicate {n : Nat} {c : Char}
    (hesc : escapeJsonChar c = [c]) (hu : utf16Units c = 1) :
    jsLength (quoteJson ⟨List.replicate n c⟩) = n + 2 := by
  rw [jsLength_data, quoteJson_replicate hesc]
  simp only [List.map_cons, List.map_append, List.sum_cons, List.sum_append,
    sum_utf16_replicate hu]
  rw [show utf16Units '"' = 1 by decide]
  simp
  omega

theorem jsonStringify_single_field {k : String} {s : String} :
    jsonStringify (.obj (.cons k (.str s) .nil)) =
      "\x7b" ++ (quoteJson k ++ ":" ++ quoteJson s) ++ "\x7d" := rfl

theorem largeAsciiData_jsLength : jsLength (jsonStringify largeAsciiData) = 19999 := by
  show jsLength (jsonStringify (.obj (.cons "k" (.str xRun19991) .nil))) = 19999
  rw [jsonStringify_single_field]
  rw [jsLength_append, jsLength_append, jsLength_append, jsLength_append]
  rw [show jsLength (quoteJson xRun19991) = 19991 + 2 from
    jsLength_quote_replicate (by decide) (by decide)]
  decide

theorem largeUnicodeData_jsLength : jsLength (jsonStringify largeUnicodeData) = 10009 := by
  show jsLength (jsonStringify (.obj (.cons "k" (.str eAcuteRun10001) .nil))) = 10009
  rw [jsonStringify_single_field]
  rw [jsLength_append, jsLength_append, jsLength_append, jsLength_append]
  rw [show jsLength (quoteJson eAcuteRun10001) = 10001 + 2 from
    jsLength_quote_replicate (by decide) (by decide)]
  decide

/-- Witness for C5 (amended): a data object serializing to exactly 19999
units is accepted. -/
theorem validate_data_size_boundary_witness :
    validateSendRequest ["welcome"] (validBody none largeAsciiData) =
      .ok ⟨"r1", "welcome", "user@example.com", "Intellex notification",
        largeAsciiData, "email"⟩ := by
  have h := @validate_data_size_boundary ["welcome"] "r1" "welcome"
    "user@example.com" none largeAsciiData "welcome"
    (by decide) (by decide) (by decide) (by rfl) (by decide)
    (by decide) (by decide) (by decide) (by decide) (by decide)
    (by decide) (by decide)
  exact h.2 (by rw [largeAsciiData_jsLength]; omega)

/-! ### UTF-8 byte sizes (the C5 counterexample) -/

theorem utf8Bytes_data {s : String} :
    utf8Bytes s = (s.data.map utf8EncodeChar).flatten := rfl

theorem utf8Bytes_append {a b : String} :
    utf8Bytes (a ++ b) = utf8Bytes a ++ utf8Bytes b := by
  simp [utf8Bytes_data, String.data_append]

theorem utf8_length_replicate {n : Nat} {c : Char} :
    ((List.replicate n c).map utf8EncodeChar).flatten.length =
      n * (utf8EncodeChar c).length := by
  induction n with
  | zero => simp
  | succ m ih =>
    simp only [List.replicate_succ, List.map_cons, List.flatten_cons,
      List.length_append, ih]
    ring

/-- The C5 counterexample body: serialized form of the data is 20010
UTF-8 bytes (above the claimed 20000-byte bound) yet only 10009 UTF-16
units, so the validator accepts it. -/
theorem validate_data_size_bytes_counterexample :
    validateSendRequest ["welcome"] (validBody none largeUnicodeData) =
      .ok ⟨"r1", "welcome", "user@example.com", "Intellex notification",
        largeUnicodeData, "email"⟩ ∧
    20000 < (utf8Bytes (jsonStringify largeUnicodeData)).length := by
  constructor
  · rw [show validBody none largeUnicodeData =
      ⟨some "r1", some "email", some "welcome", some "user@example.com",
        none, some largeUnicodeData⟩ from rfl]
    rw [@validateSendRequest_eq ["welcome"] "r1" "welcome" "user@example.com"
      none largeUnicodeData "welcome" (by decide) (by decide) (by decide)
      (by rfl) (by decide) (by decide) (by decide) (by decide)]
    rw [if_neg (by decide), if_neg (by decide),
      if_neg (by rw [largeUnicodeData_jsLength]; omega)]
    rfl
  · rw [show jsonStringify largeUnicodeData =
      "\x7b" ++ (quoteJson "k" ++ ":" ++ quoteJson eAcuteRun10001) ++ "\x7d" from rfl]
    rw [utf8Bytes_append, utf8Bytes_append, utf8Bytes_append, utf8Bytes_append]
    have hq : (utf8Bytes (quoteJson eAcuteRun10001)).length = 2 * 10001 + 2 := by
      rw [utf8Bytes_data,
        show (quoteJson eAcuteRun10001).data =
          '"' :: (List.replicate 10001 'é' ++ ['"']) from
          quoteJson_replicate (by decide)]
      simp only [List.map_cons, List.map_append, List.flatten_cons,
        List.flatten_append, List.length_append]
      rw [show ((List.replicate 10001 'é').map utf8EncodeChar).flatten.length =
        10001 * (utf8EncodeChar 'é').length from utf8_length_replicate]
      decide
    simp only [List.length_append, hq]
    decide

/-- **C6**.  With the other fields passing validation: an absent subject
(`undefined`/`null`) is defaulted to `"Intellex notification"` and the
request is accepted with that placeholder; an explicitly supplied subject
that is blank after trimming is rejected; one longer than 180 units after
trimming is rejected; and otherwise the trimmed subject is used. -/
theorem validate_subject_rules {allowed : List String}
    {idRaw tmpl toRaw : String} {d : Json} {n : String}
    (hid1 : idRaw ≠ "") (hid2 : jsTrim idRaw ≠ "")
    (hid3 : jsLength (jsTrim idRaw) ≤ 120)
    (htpl : normalizeTemplateName tmpl = .ok n) (hmem : allowed.contains n = true)
    (hto1 : jsTrim toRaw ≠ "") (hto2 : jsLength (jsTrim toRaw) ≤ 320)
    (hto3 : emailRegexTest (jsTrim toRaw) = true)
    (hd1 : jsonTruthy d = true) (hd2 : jsonIsObjectType d = true)
    (hdsize : jsLength (jsonStringify d) ≤ 20000) :
    (validateSendRequest allowed
        ⟨some idRaw, some "email", some tmpl, some toRaw, none, some d⟩ =
      .ok ⟨jsTrim idRaw, n, jsTrim toRaw, "Intellex notification", d, "email"⟩) ∧
    (∀ s : String, jsTrim s = "" →
      validateSendRequest allowed
          ⟨some idRaw, some "email", some tmpl, some toRaw, some s, some d⟩ =
        .error "subject is required and must be <= 180 characters") ∧
    (∀ s : String, 180 < jsLength (jsTrim s) →
      validateSendRequest allowed
          ⟨some idRaw, some "email", some tmpl, some toRaw, some s, some d⟩ =
        .error "subject is required and must be <= 180 characters") ∧
    (∀ s : String, jsTrim s ≠ "" → jsLength (jsTrim s) ≤ 180 →
      validateSendRequest allowed
          ⟨some idRaw, some "email", some tmpl, some toRaw, some s, some d⟩ =
        .ok ⟨jsTrim idRaw, n, jsTrim toRaw, jsTrim s, d, "email"⟩) := by
  have hdata : ¬(jsonTruthy d = false ∨ jsonIsObjectType d = false) := by
    rw [hd1, hd2]; simp
  refine ⟨?_, ?_, ?_, ?_⟩
  · rw [validateSendRequest_eq hid1 hid2 hid3 htpl hmem hto1 hto2 hto3]
    rw [if_neg (by decide), if_neg hdata, if_neg (by omega)]
    rfl
  · intro s hs
    rw [validateSendRequest_eq hid1 hid2 hid3 htpl hmem hto1 hto2 hto3]
    rw [if_pos (Or.inl (by simpa using hs))]
  · intro s hs
    rw [validateSendRequest_eq hid1 hid2 hid3 htpl hmem hto1 hto2 hto3]
    rw [if_pos (Or.inr (by simpa using hs))]
  · intro s hs1 hs2
    rw [validateSendRequest_eq hid1 hid2 hid3 htpl hmem hto1 hto2 hto3]
    rw [if_neg (by simp only [Option.getD_some, not_or]; exact ⟨hs1, by omega⟩),
      if_neg hdata, if_neg (by omega)]
    rfl

/-- Witness for C6: an absent subject yields the placeholder and is
accepted; an explicit whitespace-only subject is rejected. -/
theorem validate_subject_rules_witness :
    validateSendRequest ["welcome"] (validBody none smallData) =
      .ok ⟨"r1", "welcome", "user@example.com", "Intellex notification",
        smallData, "email"⟩ ∧
    validateSendRequest ["welcome"] (validBody (some "   ") smallData) =
      .error "subject is required and must be <= 180 characters" := by
  have h := @validate_subject_rules ["welcome"] "r1" "welcome"
    "user@example.com" smallData "welcome"
    (by decide) (by decide) (by decide) (by rfl) (by decide)
    (by decide) (by decide) (by decide) (by decide) (by decide) (by decide)
  exact ⟨h.1, h.2.1 "   " (by decide)⟩

/-! ## Event normalization (C7) and webhook acknowledgment (C8) -/

/-- **C7**.  The `email.delivered` payload with nested `email_id` and a
seconds-scale `created_at` normalizes to status `delivered`, message id
`"abc"`, and timestamp 1700000000000 ms, for every date parser, number
parser and clock (none of them is consulted); and in general a numeric
`data.created_at` strictly above 10^12 is taken as milliseconds
unchanged while one at or below it is scaled by 1000. -/
theorem normalize_delivered_event :
    (∀ (dateParse numParse : String → Option Int) (dateNowMs : Int),
      buildWebhookEvent dateParse numParse dateNowMs deliveredPayload =
        some ⟨"resend", some "abc", .delivered, 1700000000000, deliveredPayload⟩) ∧
    (∀ (dateParse numParse : String → Option Int) (dateNowMs : Int)
        (payload : Json) (v : Int),
      getNestedValue payload ["data", "created_at"] = some (.num v) →
      extractTimestampMs dateParse numParse dateNowMs payload =
        if 1000000000000 < v then v else v * 1000) := by
  constructor
  · intro dateParse numParse dateNowMs
    rfl
  · intro dateParse numParse dateNowMs payload v h
    show timestampFromPaths dateParse numParse dateNowMs payload
      (["data", "created_at"] :: [["data", "timestamp"], ["created_at"],
        ["timestamp"], ["event_timestamp"]]) = _
    unfold timestampFromPaths
    rw [h]

/-- Witness for C7: the concrete delivered payload, and a
milliseconds-scale `created_at` passed through unchanged. -/
theorem normalize_delivered_event_witness :
    buildWebhookEvent (fun _ => none) (fun _ => none) 0 deliveredPayload =
      some ⟨"resend", some "abc", .delivered, 1700000000000, deliveredPayload⟩ ∧
    extractTimestampMs (fun _ => none) (fun _ => none) 0 msTimestampPayload =
      2000000000000 := by
  constructor
  · exact normalize_delivered_event.1 (fun _ => none) (fun _ => none) 0
  · rw [normalize_delivered_event.2 (fun _ => none) (fun _ => none) 0
      msTimestampPayload 2000000000000 (by rfl)]
    norm_num

/-- **C8**.  Once signature verification passes, the webhook handler
returns an empty 204 acknowledgment and forwards exactly the normalized
event — whatever that normalization produced; and when no field yields a
recognized status alias, normalization produces no event, so nothing is
forwarded while the acknowledgment still stands. -/
theorem webhook_ack_and_silent_drop :
    (∀ (dateParse numParse : String → Option Int) (dateNowMs : Int)
        (secret raw : String) (hv : HeaderValue) (body : Json),
      (verifyResendSignature dateNowMs
        { secret := secret, signatureHeader := hv, payload := raw,
          toleranceSeconds := some 300, now := none }).ok = true →
      webhookProviderHandler dateParse numParse dateNowMs (some secret)
          (some raw) hv body =
        ⟨204, "", buildWebhookEvent dateParse numParse dateNowMs body⟩) ∧
    (∀ (dateParse numParse : String → Option Int) (dateNowMs : Int) (body : Json),
      extractStatus body = none →
      buildWebhookEvent dateParse numParse dateNowMs body = none) := by
  constructor
  · intro dateParse numParse dateNowMs secret raw hv body hok
    unfold webhookProviderHandler
    simp [hok]
  · intro dateParse numParse dateNowMs body h
    unfold buildWebhookEvent
    rw [h]

/-- Witness for C8: a correctly signed webhook carrying an unrecognized
event type is acknowledged with an empty 204 and forwards nothing. -/
theorem webhook_ack_and_silent_drop_witness :
    webhookProviderHandler (fun _ => none) (fun _ => none) 1700000000000
      (some "s") (some "p")
      (.str (createResendSignatureHeader "s" 1700000000 "p")) unknownTypePayload =
      ⟨204, "", none⟩ := by
  have hok : (verifyResendSignature 1700000000000
      { secret := "s",
        signatureHeader := .str (createResendSignatureHeader "s" 1700000000 "p"),
        payload := "p", toleranceSeconds := some 300, now := none }).ok = true := by
    rw [verify_createHeader_ok "s" "p" 1700000000 (by
      rw [show ((none : Option Int).getD 1700000000000) = 1700000000000 from rfl,
        show ((1700000000000 : Int).fdiv 1000) = 1700000000 by norm_num [Int.fdiv]]
      norm_num)]
  rw [webhook_ack_and_silent_drop.1 (fun _ => none) (fun _ => none) 1700000000000
    "s" "p" (.str (createResendSignatureHeader "s" 1700000000 "p"))
    unknownTypePayload hok]
  rw [webhook_ack_and_silent_drop.2 (fun _ => none) (fun _ => none) 1700000000000
    unknownTypePayload (by rfl)]

end Intellex
